import Mathlib

/-!
Verification of the mount-table discovery and quota-format resolution engine
of quota-tools (quotasys.c).  The C code is embedded shallowly: pure string
scanning becomes functions on `List Char`, the mount-table cache loop becomes
a fold over an explicit record type whose fields carry the outcomes of the
syscalls made for that record, and the kernel-interface probe becomes a
function of an environment record of syscall outcomes.
-/

set_option maxHeartbeats 1000000

set_option linter.unusedVariables false

namespace QuotaSys

/-! Constants.  Numeric values of the quota format codes, interface codes and
errno values come from the quota-tools headers (quotaio.h, quotasys.h) and
<linux/quota.h>/<errno.h>; the headers are not part of the analysed source
file, the values are the standard ones the spec describes. -/

def USRQUOTA : Nat := 0

def GRPQUOTA : Nat := 1

def PATH_MAX : Nat := 4096

def QF_ERROR : Int := -1

def QF_VFSOLD : Int := 0

def QF_VFSV0 : Int := 1

def QF_VFSV1 : Int := 2

def QF_RPC : Int := 3

def QF_XFS : Int := 4

def QF_META : Int := 5

def QF_VFSUNKNOWN : Int := 6

def QFMT_VFS_OLD : Int := 1

def QFMT_VFS_V0 : Int := 2

def QFMT_OCFS2 : Int := 3

def QFMT_VFS_V1 : Int := 4

def IFACE_VFSOLD : Nat := 1

def IFACE_VFSV0 : Nat := 2

def IFACE_GENERIC : Nat := 3

def EPERM : Nat := 1

def ENOENT : Nat := 2

def EACCES : Nat := 13

def EINVAL : Nat := 22

def ENOSYS : Nat := 38

def ENOTSUP : Nat := 95

/-! Mount type and mount option names (quotasys.h / mntent.h). -/

def MNTTYPE_NFS : List Char := String.toList "nfs"

def MNTTYPE_NFS4 : List Char := String.toList "nfs4"

def MNTTYPE_MPFS : List Char := String.toList "mpfs"

def MNTTYPE_XFS : List Char := String.toList "xfs"

def MNTTYPE_GFS2 : List Char := String.toList "gfs2"

def MNTTYPE_OCFS2 : List Char := String.toList "ocfs2"

def MNTTYPE_EXT4 : List Char := String.toList "ext4"

def MNTTYPE_AUTOFS : List Char := String.toList "autofs"

def MNTOPT_USRQUOTA : List Char := String.toList "usrquota"

def MNTOPT_GRPQUOTA : List Char := String.toList "grpquota"

def MNTOPT_USRJQUOTA : List Char := String.toList "usrjquota"

def MNTOPT_GRPJQUOTA : List Char := String.toList "grpjquota"

def MNTOPT_QUOTA : List Char := String.toList "quota"

def MNTOPT_NOQUOTA : List Char := String.toList "noquota"

def MNTOPT_BIND : List Char := String.toList "bind"

def MNTOPT_LOOP : List Char := String.toList "loop"

def MNTOPT_NOAUTO : List Char := String.toList "noauto"

/-- Modelled from the spec: the per-format quota-file basename table
INITQFBASENAMES of the missing quotaio.h header ("quota" for the old format,
"aquota" for the tree formats v0/v1, empty for formats without a quota
file).  Indexed by a utility format code. -/
def basenames (fmt : Int) : List Char :=
  if fmt = QF_VFSOLD then String.toList "quota"
  else if fmt = QF_VFSV0 then String.toList "aquota"
  else if fmt = QF_VFSV1 then String.toList "aquota"
  else []

/-- Modelled from the spec: the per-quota-type extension table INITQFNAMES of
the missing quota.h header ("user", "group", "undefined"). -/
def extensions (type : Nat) : List Char :=
  if type = USRQUOTA then String.toList "user"
  else if type = GRPQUOTA then String.toList "group"
  else if type = 2 then String.toList "undefined"
  else []

/-- nfs_fstype from quotasys.c: checks for the NFS family of filesystem type
names. -/
def nfs_fstype (type : List Char) : Bool :=
  type = MNTTYPE_NFS || type = MNTTYPE_NFS4 || type = MNTTYPE_MPFS

/-- meta_qf_fstype from quotasys.c. -/
def meta_qf_fstype (type : List Char) : Bool :=
  type = MNTTYPE_OCFS2

/-! ### str_hasmntopt and friends

str_hasmntopt scans a NUL-terminated option string with a do/while loop.  We
model the string as a `List Char` (C strings cannot contain NUL, so the list
holds the characters before the terminator).  The loop is driven by an
explicit fuel argument; one unit of fuel is spent per loop iteration, and
each iteration consumes at least one character of the remaining string, so
`length + 1` fuel always suffices (`str_hasmntopt` passes exactly that).
The function returns the suffix of the option string starting at the matched
token, standing for the C pointer into the string. -/

/-- One iteration of the do/while loop of str_hasmntopt: take the maximal
prefix free of ',' and '=' (the name part of the current token), compare it
with `opt`, otherwise skip a possible '=' argument up to the next ',', skip
the ',' and continue while characters remain. -/
def str_hasmntopt_go (opt : List Char) : Nat → List Char → Option (List Char)
  | 0, _ => none
  | fuel + 1, s =>
    let name := s.takeWhile (fun c => c != ',' && c != '=')
    if name = opt then some s
    else
      let r1 := s.drop name.length
      let r2 := if r1.head? = some '=' then (r1.drop 1).dropWhile (fun c => c != ',') else r1
      let r3 := if r2 = [] then r2 else r2.drop 1
      if r3 = [] then none else str_hasmntopt_go opt fuel r3

/-- str_hasmntopt from quotasys.c: return the suffix of `optstring` at the
start of the first comma-separated option token whose name (the part before a
possible '=' argument) equals `opt`, or `none`. -/
def str_hasmntopt (optstring opt : List Char) : Option (List Char) :=
  str_hasmntopt_go opt (optstring.length + 1) optstring

/-- hasmntoptarg from quotasys.c: return the suffix at the nonempty argument
of the given option, i.e. the characters after 'opt=' when the option is
present, is followed by '=' and the next character is not the ',' option
separator (the C code also accepts the end of the string there). -/
def hasmntoptarg (optstring opt : List Char) : Option (List Char) :=
  match str_hasmntopt optstring opt with
  | none => none
  | some p0 =>
    let p := p0.drop opt.length
    match p with
    | '=' :: rest => if rest.head? = some ',' then none else some rest
    | _ => none

/-- copy_mntoptarg from quotasys.c: copy the argument up to the next ','
separator into a buffer of `buflen` bytes; the bounded string copy keeps at
most `buflen - 1` characters (the last byte holds the terminator). -/
def copy_mntoptarg (optarg : List Char) (buflen : Nat) : List Char :=
  (optarg.takeWhile (fun c => c != ',')).take (buflen - 1)

/-! Specification-side view of option strings used to state the claims about
str_hasmntopt: an option string splits on ',' into tokens, and a token's name
is its part before the first '='. -/

/-- Comma-separated tokens of an option string ("a,b=c," has tokens "a",
"b=c" and ""). -/
def splitTokens : List Char → List (List Char)
  | [] => [[]]
  | c :: cs =>
    if c = ',' then [] :: splitTokens cs
    else
      match splitTokens cs with
      | t :: ts => (c :: t) :: ts
      | [] => [[c]]

/-- Name part of an option token: the characters before the first '='. -/
def optName (t : List Char) : List Char := t.takeWhile (fun c => c != '=')

/-- Modelled from the C library (external interface): hasmntopt(3) reports
whether some comma-separated token of the option string, truncated before a
possible '=' argument, equals the searched option name. -/
def hasmntopt (optstring opt : List Char) : Bool :=
  (splitTokens optstring).any (fun t => optName t = opt)

/-! ### The mount-table cache (cache_mnt_table)

Each record read with getmntent is modelled together with the outcomes of the
syscalls cache_mnt_table makes for it (get_device_name, the quotactl probes
of hasquota, realpath, statfs, stat of the device node and of the mountpoint).
A `none` outcome stands for a failing call, `some` carries the result. -/

/-- Scan flags of init_mounts_scan/cache_mnt_table (the MS_* bits of
quotasys.h), one Bool per bit used by the analysed code. -/
structure ScanFlags where
  ms_no_autofs : Bool
  ms_localonly : Bool
  ms_nfs_all : Bool
  ms_xfs_disabled : Bool
deriving DecidableEq

/-- Outcome of stat() on a device node: the file type class and st_rdev. -/
structure DevStat where
  isBlk : Bool
  isChr : Bool
  st_rdev : Nat
deriving DecidableEq

/-- Outcome of stat() on a mountpoint directory: st_dev and st_ino. -/
structure DirStat where
  st_dev : Nat
  st_ino : Nat
deriving DecidableEq

/-- One mount-table record together with the outcomes of the system calls
made for it by cache_mnt_table and hasquota.  The quotactl outcomes are per
quota type (the C code issues one call per type). -/
structure MntRecord where
  mnt_fsname : List Char
  mnt_dir : List Char
  mnt_type : List Char
  mnt_opts : List Char
  /-- Result of get_device_name(mnt_fsname); none when unresolvable. -/
  get_device_name : Option (List Char)
  /-- Content of the stack buffer `loopdev` in the loop-option branch.  The
  C code passes the arguments of copy_mntoptarg swapped there, so the buffer
  is never filled from the option string and keeps its previous (arbitrary)
  content; the model carries that content as an oracle. -/
  loop_buf : List Char
  /-- qs_flags of a successful quotactl(Q_XFS_GETQSTAT, type). -/
  xfs_qstat : Nat → Option Nat
  /-- Whether quotactl(Q_GETFMT, type) succeeds (OCFS2 branch). -/
  getfmt_ok : Nat → Bool
  /-- dqi_flags of a successful quotactl(Q_GETINFO, type) (ext4 branch). -/
  ext4_dqi_flags : Nat → Option Nat
  /-- Result of realpath(mnt_dir). -/
  realpath_dir : Option (List Char)
  /-- f_blocks, f_bfree, f_bavail of a successful statfs on the canonical
  mountpoint. -/
  statfs_res : Option (Nat × Nat × Nat)
  /-- Result of stat() on the device node. -/
  dev_stat : Option DevStat
  /-- Result of stat() on the raw mountpoint directory. -/
  dir_stat : Option DirStat

/-- struct mount_entry of quotasys.h: one cached mounted filesystem.  me_dir
(the caller-facing directory alias) is NULL right after insertion; NULL is
modelled as the empty string. -/
structure mount_entry where
  me_type : List Char
  me_opts : List Char
  me_dev : Nat
  me_ino : Nat
  me_devname : List Char
  me__dir : List Char
  me_dir : List Char
  me_qfmt : Int × Int
deriving DecidableEq

/-- Read of the per-type slot of the me_qfmt array. -/
def me_qfmt_at (m : mount_entry) (type : Nat) : Int :=
  if type = USRQUOTA then m.me_qfmt.1 else m.me_qfmt.2

/-- hasxfsquota from quotasys.c (XFS_ROOTHACK is not compiled in): the
MS_XFS_DISABLED override short-circuits to the XFS format, otherwise the
accounting bit of the requested type is inspected in qs_flags
(XFS_QUOTA_UDQ_ACCT is bit 0, XFS_QUOTA_GDQ_ACCT is bit 2). -/
def hasxfsquota (r : MntRecord) (type : Nat) (flags : ScanFlags) : Int :=
  if flags.ms_xfs_disabled = true then QF_XFS
  else
    match r.xfs_qstat type with
    | some qs_flags =>
      if type = USRQUOTA ∧ qs_flags.testBit 0 = true then QF_XFS
      else if type = GRPQUOTA ∧ qs_flags.testBit 2 = true then QF_XFS
      else QF_ERROR
    | none => QF_ERROR

/-- hasvfsmetaquota from quotasys.c. -/
def hasvfsmetaquota (r : MntRecord) (type : Nat) : Int :=
  if r.getfmt_ok type = true then QF_META else QF_ERROR

/-- hasquota from quotasys.c.  `opts` is passed separately from the record
because the loop-option branch of cache_mnt_table overwrites the option
string in place before calling hasquota (see loop_subst).  The `dev`
argument feeds only the quotactl probes, whose outcomes the record already
carries.  DQF_SYS_FILE is bit 16 of dqi_flags. -/
def hasquota (dev : List Char) (r : MntRecord) (opts : List Char) (type : Nat)
    (flags : ScanFlags) : Int :=
  if r.mnt_type = MNTTYPE_GFS2 ∨ r.mnt_type = MNTTYPE_XFS then hasxfsquota r type flags
  else if r.mnt_type = MNTTYPE_OCFS2 then hasvfsmetaquota r type
  else if r.mnt_type = MNTTYPE_EXT4 ∧
      (match r.ext4_dqi_flags type with
       | some fl => fl.testBit 16
       | none => false) = true then QF_META
  else if nfs_fstype r.mnt_type = true then QF_RPC
  else if type = USRQUOTA ∧
      (hasmntopt opts MNTOPT_USRQUOTA = true ∨
       (hasmntoptarg opts MNTOPT_USRJQUOTA).isSome = true) then QF_VFSUNKNOWN
  else if type = GRPQUOTA ∧
      (hasmntopt opts MNTOPT_GRPQUOTA = true ∨
       (hasmntoptarg opts MNTOPT_GRPJQUOTA).isSome = true) then QF_VFSUNKNOWN
  else if type = USRQUOTA ∧ hasmntopt opts MNTOPT_QUOTA = true then QF_VFSUNKNOWN
  else QF_ERROR

/-- The loop-option branch of cache_mnt_table.  The C code calls
copy_mntoptarg(opt, loopdev, PATH_MAX) with the destination and source
swapped (a genuine slip): it copies the separator-terminated prefix of the
uninitialized buffer `loopdev` over the option argument inside mnt_opts
(truncating the option string there, since the copy writes a terminator) and
then takes the buffer content as the device name.  Returns the (devname,
mnt_opts) pair after the branch. -/
def loop_subst (r : MntRecord) (devname0 : List Char) : List Char × List Char :=
  match hasmntoptarg r.mnt_opts MNTOPT_LOOP with
  | some argSuffix =>
    (r.loop_buf,
     r.mnt_opts.take (r.mnt_opts.length - argSuffix.length) ++
       copy_mntoptarg r.loop_buf PATH_MAX)
  | none => (devname0, r.mnt_opts)

/-- State threaded through the cache_mnt_table loop: the cached entries and
the recorded autofs mountpoint prefixes. -/
structure CacheState where
  entries : List mount_entry
  autofs : List (List Char)

/-! One iteration of the getmntent loop of cache_mnt_table is modelled by
`step`, split into helpers that follow the successive stages of the C loop
body (the split is purely structural; the control flow is that of the single
C loop body): the option filters, the loop-option substitution and
classification, the mountpoint canonicalization and statfs checks, and the
per-family device-identity and first-seen deduplication stage. -/

/-- Local (non-NFS) tail of the loop body: stat the device node, require a
block or character device, take st_rdev as identity, search the cache, and
append a new entry (with the mountpoint stat) only when the identity is
new. -/
def step_local (st : CacheState) (r : MntRecord) (devname opts : List Char)
    (qu qg : Int) (mntpointbuf : List Char) : CacheState :=
  match r.dev_stat with
  | none => st
  | some ds =>
    if ds.isBlk = false ∧ ds.isChr = false then st
    else if st.entries.any (fun e => e.me_dev == ds.st_rdev) = true then st
    else
      match r.dir_stat with
      | none => st
      | some dirst =>
        { st with entries := st.entries ++
            [⟨r.mnt_type, opts, ds.st_rdev, dirst.st_ino, devname,
              mntpointbuf, [], (qu, qg)⟩] }

/-- NFS-family tail of the loop body: stat the mountpoint, take its st_dev
as identity, and search the cache only when MS_NFS_ALL is not set. -/
def step_nfs (flags : ScanFlags) (st : CacheState) (r : MntRecord)
    (devname opts : List Char) (qu qg : Int) (mntpointbuf : List Char) : CacheState :=
  match r.dir_stat with
  | none => st
  | some dirst =>
    if flags.ms_nfs_all = false ∧
        st.entries.any (fun e => e.me_dev == dirst.st_dev) = true then st
    else
      { st with entries := st.entries ++
          [⟨r.mnt_type, opts, dirst.st_dev, dirst.st_ino, devname,
            mntpointbuf, [], (qu, qg)⟩] }

/-- Mountpoint stage of the loop body: realpath the mountpoint, statfs it,
skip the all-zero "magic" automount placeholders, then dispatch on the
filesystem family. -/
def step_mntstat (flags : ScanFlags) (st : CacheState) (r : MntRecord)
    (devname opts : List Char) (qu qg : Int) : CacheState :=
  match r.realpath_dir with
  | none => st
  | some mntpointbuf =>
    match r.statfs_res with
    | none => st
    | some fsstat =>
      if fsstat.1 = 0 ∧ fsstat.2.1 = 0 ∧ fsstat.2.2 = 0 then st
      else if nfs_fstype r.mnt_type = false then
        step_local st r devname opts qu qg mntpointbuf
      else step_nfs flags st r devname opts qu qg mntpointbuf

/-- Classification stage of the loop body: the loop-option device
substitution, hasquota for both types, and the skip when neither type has
quota. -/
def step_quota (flags : ScanFlags) (st : CacheState) (r : MntRecord)
    (devname0 : List Char) : CacheState :=
  let dno := loop_subst r devname0
  let qu := hasquota dno.1 r dno.2 USRQUOTA flags
  let qg := hasquota dno.1 r dno.2 GRPQUOTA flags
  if qu < 0 ∧ qg < 0 then st
  else step_mntstat flags st r dno.1 dno.2 qu qg

/-- One iteration of the getmntent loop of cache_mnt_table: device-name
resolution, the autofs prefix skip, remembering an autofs mountpoint (only
under MS_NO_AUTOFS), the localonly/noquota/bind filters, then the
classification and caching stages above. -/
def step (flags : ScanFlags) (st : CacheState) (r : MntRecord) : CacheState :=
  match r.get_device_name with
  | none => st
  | some devname0 =>
    if st.autofs.any (fun d => d.isPrefixOf r.mnt_dir) = true then st
    else if flags.ms_no_autofs = true ∧ r.mnt_type = MNTTYPE_AUTOFS then
      { st with autofs := st.autofs ++ [r.mnt_dir ++ ['/']] }
    else if flags.ms_localonly = true ∧ nfs_fstype r.mnt_type = true then st
    else if hasmntopt r.mnt_opts MNTOPT_NOQUOTA = true then st
    else if hasmntopt r.mnt_opts MNTOPT_BIND = true then st
    else step_quota flags st r devname0

/-- cache_mnt_table from quotasys.c, as a fold of `step` over the mount-table
records, starting from the empty cache. -/
def cache_mnt_table (flags : ScanFlags) (rs : List MntRecord) : CacheState :=
  rs.foldl (step flags) ⟨[], []⟩

/-- Conditions under which the cache loop reaches the final dedup stage for
an NFS-family record (all filters passed, realpath/statfs/mountpoint-stat
succeeded, at least one quota type classified).  Used to state that under
MS_NFS_ALL every such record gets its own cache entry. -/
def nfs_record_passes (flags : ScanFlags) (st : CacheState) (r : MntRecord) : Prop :=
  ∃ dn mp fs dirst,
    r.get_device_name = some dn ∧
    st.autofs.any (fun d => d.isPrefixOf r.mnt_dir) = false ∧
    flags.ms_localonly = false ∧
    hasmntopt r.mnt_opts MNTOPT_NOQUOTA = false ∧
    hasmntopt r.mnt_opts MNTOPT_BIND = false ∧
    ¬(hasquota (loop_subst r dn).1 r (loop_subst r dn).2 USRQUOTA flags < 0 ∧
      hasquota (loop_subst r dn).1 r (loop_subst r dn).2 GRPQUOTA flags < 0) ∧
    r.realpath_dir = some mp ∧
    r.statfs_res = some fs ∧
    ¬(fs.1 = 0 ∧ fs.2.1 = 0 ∧ fs.2.2 = 0) ∧
    r.dir_stat = some dirst

/-! ### Kernel interface probe (init_kernel_interface)

The probe issues a fixed sequence of stat and quotactl calls; the
environment record carries their outcomes.  For each call `none` means
success and `some e` a failure with errno `e` (a failing call always sets a
nonzero errno; theorems that depend on it take that as a hypothesis). -/

/-- Outcomes of the calls made by init_kernel_interface. -/
structure KernelProbeEnv where
  /-- stat("/proc/fs/xfs/stat"). -/
  stat_proc_fs_xfs_stat : Option Nat
  /-- quotactl(Q_XGETQSTAT, 0) on "/dev/root". -/
  xgetqstat_root : Option Nat
  /-- stat("/proc/sys/fs/quota"). -/
  stat_proc_sys_fs_quota : Option Nat
  /-- quotactl(Q_V2_GETSTATS, 0) with a NULL device. -/
  v2_getstats : Option Nat
  /-- quotactl(Q_V1_GETSTATS, 0) with a NULL device. -/
  v1_getstats : Option Nat
  /-- quotactl(Q_V1_GETQUOTA, 0) on "/dev/null". -/
  v1_getquota_devnull : Option Nat
deriving DecidableEq

/-- Result of the probe: the kernel interface generation (none when the
probe leaves the global untouched, i.e. when the version-2 statistics call
fails with ENOSYS/ENOTSUP) and the recorded supported formats, in the order
the C code appends them to kernel_qfmt. -/
structure KernelState where
  kernel_iface : Option Nat
  kernel_qfmt : List Int
deriving DecidableEq

/-- Step (a) of the probe: the XFS capability check, contributing QF_XFS to
the supported-format list when /proc/fs/xfs/stat exists or the XFS
statistics call does not fail with EINVAL/ENOSYS. -/
def xfs_probe_fmts (env : KernelProbeEnv) : List Int :=
  match env.stat_proc_fs_xfs_stat with
  | none => [QF_XFS]
  | some _ =>
    match env.xgetqstat_root with
    | none => [QF_XFS]
    | some e => if e ≠ EINVAL ∧ e ≠ ENOSYS then [QF_XFS] else []

/-- init_kernel_interface from quotasys.c (the signal-handler swap around the
probe has no effect on the computed state and is not modelled).  Steps: (a)
XFS capability; (b) generic interface assumed unless stat of
/proc/sys/fs/quota fails with ENOENT; (c) version-2 statistics call; (d) the
historical RedHat 2.4.2-2 disambiguation from the pair of error codes of a
version-1 statistics call and a version-1 get-quota call on /dev/null. -/
def init_kernel_interface (env : KernelProbeEnv) : KernelState :=
  let fmts0 := xfs_probe_fmts env
  match env.stat_proc_sys_fs_quota with
  | none => ⟨some IFACE_GENERIC, fmts0 ++ [QF_META, QF_VFSOLD, QF_VFSV0, QF_VFSV1]⟩
  | some e =>
    if e ≠ ENOENT then
      ⟨some IFACE_GENERIC, fmts0 ++ [QF_META, QF_VFSOLD, QF_VFSV0, QF_VFSV1]⟩
    else
      match env.v2_getstats with
      | none => ⟨some IFACE_VFSV0, fmts0 ++ [QF_VFSV0]⟩
      | some e2 =>
        if e2 ≠ ENOSYS ∧ e2 ≠ ENOTSUP then
          let err_stat := match env.v1_getstats with | none => 0 | some es => es
          let err_quota := match env.v1_getquota_devnull with | none => 0 | some eq => eq
          if err_stat = 0 ∧ err_quota = EINVAL then
            ⟨some IFACE_VFSV0, fmts0 ++ [QF_VFSV0]⟩
          else
            ⟨some IFACE_VFSOLD, fmts0 ++ [QF_VFSOLD]⟩
        else ⟨none, fmts0⟩

/-- kern2utilfmt from quotasys.c. -/
def kern2utilfmt (kernfmt : Int) : Int :=
  if kernfmt = QFMT_VFS_OLD then QF_VFSOLD
  else if kernfmt = QFMT_VFS_V0 then QF_VFSV0
  else if kernfmt = QFMT_VFS_V1 then QF_VFSV1
  else if kernfmt = QFMT_OCFS2 then QF_META
  else -1

/-- util2kernfmt from quotasys.c. -/
def util2kernfmt (fmt : Int) : Int :=
  if fmt = QF_VFSOLD then QFMT_VFS_OLD
  else if fmt = QF_VFSV0 then QFMT_VFS_V0
  else if fmt = QF_VFSV1 then QFMT_VFS_V1
  else -1

/-! ### Is quota turned on in the kernel (kern_quota_on) -/

/-- Outcomes of the live probes kern_quota_on can make, per device name and
quota type: the XFS accounting-bit check (xfs_kern_quota_on), the generic
format query (quotactl Q_GETFMT, returning the kernel format on success),
and the v2/v1 get-quota probes (v2_kern_quota_on / v1_kern_quota_on). -/
structure KernEnv where
  xfs_on : List Char → Nat → Bool
  getfmt : List Char → Nat → Option Int
  v2_on : List Char → Nat → Bool
  v1_on : List Char → Nat → Bool

/-- kern_quota_on from quotasys.c, parameterized by the process-wide
kernel_iface value set by init_kernel_interface. -/
def kern_quota_on (env : KernEnv) (kernel_iface : Nat) (mnt : mount_entry)
    (type : Nat) (fmt : Int) : Int :=
  if me_qfmt_at mnt type < 0 then -1
  else if fmt = QF_RPC then -1
  else if me_qfmt_at mnt type = QF_XFS then
    if (fmt = -1 ∨ fmt = QF_XFS) ∧ env.xfs_on mnt.me_devname type = true then QF_XFS
    else -1
  else if fmt = QF_XFS then -1
  else if me_qfmt_at mnt type = QF_META then QF_META
  else if kernel_iface = IFACE_GENERIC then
    match env.getfmt mnt.me_devname type with
    | some kf => if 0 ≤ kern2utilfmt kf then kern2utilfmt kf else -1
    | none => -1
  else
    if (fmt = -1 ∨ fmt = QF_VFSV0) ∧ env.v2_on mnt.me_devname type = true then QF_VFSV0
    else if (fmt = -1 ∨ fmt = QF_VFSOLD) ∧ env.v1_on mnt.me_devname type = true then QF_VFSOLD
    else -1

/-! ### Quota file resolution (get_qf_name, check_fmtfile_ok) -/

/-- The NF_EXIST / NF_FORMAT bits of the flags argument of get_qf_name. -/
structure NfFlags where
  exist : Bool
  format : Bool
deriving DecidableEq

/-- Outcomes of the filesystem calls check_fmtfile_ok makes, per file name:
stat (none = success), open for reading (none = success), and the verdicts
of the external tree-format and flat-format checkers on the opened file. -/
structure FsEnv where
  stat : List Char → Option Nat
  openf : List Char → Option Nat
  check_tree : List Char → Nat → Int → Int
  check_flat : List Char → Nat → Int → Int

/-- Modelled from the spec: is_tree_qfmt of the missing quotaio code —
whether the format uses the tree-structured on-disk layout (the v0 and v1
formats; the old format is flat). -/
def is_tree_qfmt (fmt : Int) : Bool :=
  fmt = QF_VFSV0 || fmt = QF_VFSV1

/-- check_fmtfile_ok from quotasys.c.  Returns (verdict, diagnostic):
verdict true mirrors the C return value 1, the diagnostic flag records
whether an errstr message was emitted.  With no flags the check passes.
With NF_EXIST a stat failure returns 0 — for every errno, ENOENT included —
and emits the diagnostic only for errors other than ENOENT.  With NF_FORMAT
an openable file must satisfy the matching external checker; a failure to
open with ENOENT or EPERM is tolerated, any other open error fails with a
diagnostic. -/
def check_fmtfile_ok (env : FsEnv) (name : List Char) (type : Nat) (fmt : Int)
    (flags : NfFlags) : Bool × Bool :=
  if flags.exist = false ∧ flags.format = false then (true, false)
  else
    match (if flags.exist = true then env.stat name else none) with
    | some e => (false, e ≠ ENOENT)
    | none =>
      if flags.format = true then
        match env.openf name with
        | none =>
          if (if is_tree_qfmt fmt = true then env.check_tree name type fmt
              else env.check_flat name type fmt) ≤ 0 then (false, false)
          else (true, false)
        | some e =>
          if e ≠ ENOENT ∧ e ≠ EPERM then (false, true) else (true, false)
      else (true, false)

/-- The bounded build of "mountpoint/" for the journaled-quota branches of
get_qf_name (sstrncpy of me_dir into the PATH_MAX buffer followed by
sstrncat of "/"; both keep the buffer NUL-terminated, so at most
PATH_MAX - 1 characters survive). -/
def dir_slash (dir : List Char) : List Char :=
  (dir.take (PATH_MAX - 1) ++ ['/']).take (PATH_MAX - 1)

/-- Branch selection of get_qf_name: which mount option defines the quota
file for the requested type.  Returns (has_quota_file_definition, the
buffer content built so far, the pathname pointer), or none when no option
matches (get_qf_name then returns -1).  Mirrors the if/else-if chain of the
C code, including the detail that in the plain usrquota branch the pathname
pointer is left on the '=' character (it is not advanced past it, unlike in
the grpquota and quota branches). -/
def qf_branch (mnt : mount_entry) (type : Nat) : Option (Bool × List Char × List Char) :=
  if type = USRQUOTA then
    match str_hasmntopt mnt.me_opts MNTOPT_USRQUOTA with
    | some o =>
      let pathname := o.drop MNTOPT_USRQUOTA.length
      some (pathname.head? = some '=', [], pathname)
    | none =>
      match hasmntoptarg mnt.me_opts MNTOPT_USRJQUOTA with
      | some arg => some (true, dir_slash mnt.me_dir, arg)
      | none =>
        match str_hasmntopt mnt.me_opts MNTOPT_QUOTA with
        | some o =>
          let p0 := o.drop MNTOPT_QUOTA.length
          if p0.head? = some '=' then some (true, [], p0.drop 1)
          else some (false, [], p0)
        | none => none
  else if type = GRPQUOTA then
    match str_hasmntopt mnt.me_opts MNTOPT_GRPQUOTA with
    | some o =>
      let p0 := o.drop MNTOPT_GRPQUOTA.length
      if p0.head? = some '=' then some (true, [], p0.drop 1)
      else some (false, [], p0)
    | none =>
      match hasmntoptarg mnt.me_opts MNTOPT_GRPJQUOTA with
      | some arg => some (true, dir_slash mnt.me_dir, arg)
      | none => none
  else none

/-- get_qf_name from quotasys.c.  Returns (resolved file name, diagnostic
flag); a `none` file name mirrors the C return value -1.  When the matched
option carries a quota-file definition the argument is appended to the
buffer content with copy_mntoptarg (bounded by the space left in the
PATH_MAX buffer); otherwise the name is synthesized as
"mountpoint/basename.extension" with snprintf, which keeps at most
PATH_MAX - 1 characters. -/
def get_qf_name (env : FsEnv) (mnt : mount_entry) (type : Nat) (fmt : Int)
    (flags : NfFlags) : Option (List Char) × Bool :=
  match qf_branch mnt type with
  | none => (none, false)
  | some br =>
    let qfullname :=
      if br.1 = true then br.2.1 ++ copy_mntoptarg br.2.2 (PATH_MAX - br.2.1.length)
      else (mnt.me_dir ++ '/' :: basenames fmt ++ '.' :: extensions type).take (PATH_MAX - 1)
    match check_fmtfile_ok env qfullname type fmt flags with
    | (true, d) => (some qfullname, d)
    | (false, d) => (none, d)

/-! ### Concrete environments, records and entries used to instantiate the
theorems below on closed inputs. -/

/-- File environment in which every call succeeds and both checkers accept. -/
def envFsOk : FsEnv :=
  ⟨fun _ => none, fun _ => none, fun _ _ _ => 1, fun _ _ _ => 1⟩

/-- File environment in which every stat fails with ENOENT. -/
def envFsEnoent : FsEnv :=
  ⟨fun _ => some ENOENT, fun _ => none, fun _ _ _ => 1, fun _ _ _ => 1⟩

/-- File environment in which every stat fails with EACCES. -/
def envFsEacces : FsEnv :=
  ⟨fun _ => some EACCES, fun _ => none, fun _ _ _ => 1, fun _ _ _ => 1⟩

/-- Kernel probe environment in which every live probe answers negatively. -/
def envKernOff : KernEnv :=
  ⟨fun _ _ => false, fun _ _ => none, fun _ _ => false, fun _ _ => false⟩

/-- A mount entry whose user quota is classified as the metadata format. -/
def mntMeta : mount_entry :=
  ⟨String.toList "ocfs2", String.toList "rw", 11, 5, String.toList "/dev/sda1",
   String.toList "/mnt", String.toList "/mnt", (QF_META, QF_ERROR)⟩

/-- A mount entry with a plain usrquota option and no path argument. -/
def mntPlainUsr : mount_entry :=
  ⟨String.toList "ext3", String.toList "rw,usrquota", 11, 5, String.toList "/dev/sda1",
   String.toList "/mnt", String.toList "/mnt", (QF_VFSUNKNOWN, QF_ERROR)⟩

/-- A mount entry with a journaled user-quota option with path argument. -/
def mntJq : mount_entry :=
  ⟨String.toList "ext3", String.toList "usrjquota=/my/journal,jqfmt=vfsv0", 11, 5,
   String.toList "/dev/sda1", String.toList "/mnt", String.toList "/mnt",
   (QF_VFSUNKNOWN, QF_ERROR)⟩

/-- Scan flags with no bit set. -/
def flagsNone : ScanFlags := ⟨false, false, false, false⟩

/-- Scan flags with only MS_NFS_ALL set. -/
def flagsNfsAll : ScanFlags := ⟨false, false, true, false⟩

/-- Scan flags with only MS_NO_AUTOFS set. -/
def flagsNoAutofs : ScanFlags := ⟨true, false, false, false⟩

/-- An autofs mount-table record that itself carries a usrquota option and
whose syscalls all succeed. -/
def recAutofsQuota : MntRecord :=
  { mnt_fsname := String.toList "auto.net"
    mnt_dir := String.toList "/net"
    mnt_type := String.toList "autofs"
    mnt_opts := String.toList "rw,usrquota"
    get_device_name := some (String.toList "/dev/auto0")
    loop_buf := []
    xfs_qstat := fun _ => none
    getfmt_ok := fun _ => false
    ext4_dqi_flags := fun _ => none
    realpath_dir := some (String.toList "/net")
    statfs_res := some (10, 5, 5)
    dev_stat := some ⟨true, false, 77⟩
    dir_stat := some ⟨3, 9⟩ }

/-- An NFS mount-table record whose syscalls all succeed. -/
def recNfsHome : MntRecord :=
  { mnt_fsname := String.toList "srv:/home"
    mnt_dir := String.toList "/home"
    mnt_type := String.toList "nfs"
    mnt_opts := String.toList "rw"
    get_device_name := some (String.toList "srv:/home")
    loop_buf := []
    xfs_qstat := fun _ => none
    getfmt_ok := fun _ => false
    ext4_dqi_flags := fun _ => none
    realpath_dir := some (String.toList "/home")
    statfs_res := some (10, 5, 5)
    dev_stat := none
    dir_stat := some ⟨21, 2⟩ }

/-- Probe environment for the historical disambiguation branch: no XFS, stat
of /proc/sys/fs/quota fails with ENOENT, the version-2 statistics call fails
with EPERM, the version-1 statistics call succeeds and the version-1
get-quota call fails with EINVAL. -/
def envProbeHeur : KernelProbeEnv :=
  ⟨some ENOENT, some EINVAL, some ENOENT, some EPERM, none, some EINVAL⟩

/-- Probe environment in which stat of /proc/sys/fs/quota fails with EACCES
(the pseudo-file is not shown to be present, yet the code selects the
generic interface). -/
def envProbeEacces : KernelProbeEnv :=
  ⟨some ENOENT, some EINVAL, some EACCES, some ENOSYS, none, none⟩

/-- Probe environment in which stat of /proc/sys/fs/quota succeeds. -/
def envProbeGeneric : KernelProbeEnv :=
  ⟨some ENOENT, some EINVAL, none, some ENOSYS, none, none⟩

/-! ## Theorems -/

/-! ### C4 and C5: kern_quota_on -/

/-- C4: for every mount entry and every requested format (the wildcard -1
included), kern_quota_on returns the no-quota sentinel -1 whenever the
mount's classified format for the requested type is negative, and also
whenever the requested format is the RPC format, regardless of the
classified format. -/
theorem kern_quota_on_no_quota (env : KernEnv) (kernel_iface : Nat)
    (mnt : mount_entry) (type : Nat) (fmt : Int)
    (h : me_qfmt_at mnt type < 0 ∨ fmt = QF_RPC) :
    kern_quota_on env kernel_iface mnt type fmt = -1 := by
  rcases h with h | h
  · simp only [kern_quota_on, if_pos h]
  · by_cases hq : me_qfmt_at mnt type < 0
    · simp only [kern_quota_on, if_pos hq]
    · simp only [kern_quota_on, if_neg hq, if_pos h]

/-- Witness for C4 at concrete inputs. -/
theorem kern_quota_on_no_quota_witness :
    kern_quota_on envKernOff IFACE_GENERIC mntMeta USRQUOTA QF_RPC = -1 ∧
    kern_quota_on envKernOff IFACE_GENERIC mntPlainUsr GRPQUOTA (-1) = -1 :=
  ⟨kern_quota_on_no_quota _ _ _ _ _ (Or.inr rfl),
   kern_quota_on_no_quota _ _ _ _ _ (Or.inl (by decide))⟩

/-- Counterexample to C5 as stated: for a mount whose user quota is
classified as the metadata format, requesting the XFS format yields the
no-quota sentinel -1, not QF_META, so the classified metadata format is not
reported active for every requested format. -/
theorem kern_quota_on_meta_cex :
    me_qfmt_at mntMeta USRQUOTA = QF_META ∧
    kern_quota_on envKernOff IFACE_GENERIC mntMeta USRQUOTA QF_XFS = -1 ∧
    kern_quota_on envKernOff IFACE_GENERIC mntMeta USRQUOTA QF_XFS ≠ QF_META := by
  decide

/-- C5 as amended: for every mount whose classified format for the requested
type is the metadata format, kern_quota_on reports QF_META for every
requested format other than the RPC and XFS formats (those two requests
return the no-quota sentinel -1 first). -/
theorem kern_quota_on_meta (env : KernEnv) (kernel_iface : Nat)
    (mnt : mount_entry) (type : Nat) (fmt : Int)
    (hmeta : me_qfmt_at mnt type = QF_META)
    (hrpc : fmt ≠ QF_RPC) (hxfs : fmt ≠ QF_XFS) :
    kern_quota_on env kernel_iface mnt type fmt = QF_META := by
  have h1 : ¬ me_qfmt_at mnt type < 0 := by rw [hmeta]; decide
  have h2 : ¬ me_qfmt_at mnt type = QF_XFS := by rw [hmeta]; decide
  simp only [kern_quota_on, if_neg h1, if_neg hrpc, if_neg h2, if_neg hxfs, if_pos hmeta]

/-- Witness for C5 (amended) at concrete inputs. -/
theorem kern_quota_on_meta_witness :
    kern_quota_on envKernOff IFACE_GENERIC mntMeta USRQUOTA (-1) = QF_META :=
  kern_quota_on_meta _ _ _ _ _ (by decide) (by decide) (by decide)

/-! ### C2 and C8: init_kernel_interface -/

/-- C2: in the branch where stat of /proc/sys/fs/quota failed with ENOENT
and the version-2 statistics call failed with an errno other than
ENOSYS/ENOTSUP, the probe decides from the error-code pair of the version-1
statistics call and the version-1 get-quota call on the null device:
statistics success together with get-quota failing with EINVAL selects the
v0-legacy interface recording QF_VFSV0, every other combination selects the
old-legacy interface recording QF_VFSOLD.  The hypothesis on v1_getstats
encodes that a failing call sets a nonzero errno. -/
theorem init_kernel_interface_heuristic (env : KernelProbeEnv) (e2 : Nat)
    (hs : env.stat_proc_sys_fs_quota = some ENOENT)
    (h2 : env.v2_getstats = some e2)
    (h2a : e2 ≠ ENOSYS) (h2b : e2 ≠ ENOTSUP)
    (hwf : env.v1_getstats ≠ some 0) :
    (env.v1_getstats = none ∧ env.v1_getquota_devnull = some EINVAL →
      init_kernel_interface env =
        ⟨some IFACE_VFSV0, xfs_probe_fmts env ++ [QF_VFSV0]⟩) ∧
    (¬(env.v1_getstats = none ∧ env.v1_getquota_devnull = some EINVAL) →
      init_kernel_interface env =
        ⟨some IFACE_VFSOLD, xfs_probe_fmts env ++ [QF_VFSOLD]⟩) := by
  simp only [init_kernel_interface, hs, h2]
  rw [if_neg (by decide : ¬ (ENOENT ≠ ENOENT)), if_pos ⟨h2a, h2b⟩]
  constructor
  · rintro ⟨ha, hb⟩
    simp only [ha, hb, and_self, if_true]
  · intro hne
    rw [if_neg]
    rintro ⟨hc1, hc2⟩
    apply hne
    constructor
    · cases hv : env.v1_getstats with
      | none => rfl
      | some es =>
        exfalso
        simp only [hv] at hc1
        subst hc1
        exact hwf hv
    · cases hq : env.v1_getquota_devnull with
      | none =>
        exfalso
        simp only [hq] at hc2
        exact absurd hc2 (by decide)
      | some ev =>
        simp only [hq] at hc2
        exact congrArg some hc2

/-- Witness for C2 at a concrete probe environment. -/
theorem init_kernel_interface_heuristic_witness :
    init_kernel_interface envProbeHeur =
      ⟨some IFACE_VFSV0, xfs_probe_fmts envProbeHeur ++ [QF_VFSV0]⟩ :=
  (init_kernel_interface_heuristic envProbeHeur EPERM rfl rfl (by decide) (by decide)
    (by decide)).1 ⟨rfl, rfl⟩

/-- Counterexample to C8 as stated: when stat of /proc/sys/fs/quota fails
with EACCES the pseudo-file is not shown to be present, yet the probe
selects the generic interface — so "generic exactly when the path is
present" fails. -/
theorem init_kernel_interface_generic_cex :
    (init_kernel_interface envProbeEacces).kernel_iface = some IFACE_GENERIC ∧
    envProbeEacces.stat_proc_sys_fs_quota ≠ none := by
  decide

/-- C8 as amended: the probe selects the generic interface exactly when stat
of the generic quota control pseudo-file path does not fail with ENOENT (the
path is present, or inaccessible for any other reason), and in that case it
records the meta, old, v0 and v1 formats and its whole result depends only
on the XFS probe step — no further interface probing is performed. -/
theorem init_kernel_interface_generic_iff :
    (∀ env : KernelProbeEnv,
      ((init_kernel_interface env).kernel_iface = some IFACE_GENERIC ↔
        env.stat_proc_sys_fs_quota ≠ some ENOENT)) ∧
    (∀ env : KernelProbeEnv, env.stat_proc_sys_fs_quota ≠ some ENOENT →
      init_kernel_interface env =
        ⟨some IFACE_GENERIC,
         xfs_probe_fmts env ++ [QF_META, QF_VFSOLD, QF_VFSV0, QF_VFSV1]⟩) := by
  have key : ∀ env : KernelProbeEnv, env.stat_proc_sys_fs_quota ≠ some ENOENT →
      init_kernel_interface env =
        ⟨some IFACE_GENERIC,
         xfs_probe_fmts env ++ [QF_META, QF_VFSOLD, QF_VFSV0, QF_VFSV1]⟩ := by
    intro env h
    cases hs : env.stat_proc_sys_fs_quota with
    | none => simp only [init_kernel_interface, hs]
    | some e =>
      rw [hs] at h
      simp only [init_kernel_interface, hs]
      rw [if_pos (fun he => h (by rw [he]))]
  refine ⟨fun env => ⟨?_, fun h => by rw [key env h]⟩, key⟩
  intro hgen
  intro hs
  have hval : (init_kernel_interface env).kernel_iface = some IFACE_VFSV0 ∨
      (init_kernel_interface env).kernel_iface = some IFACE_VFSOLD ∨
      (init_kernel_interface env).kernel_iface = none := by
    cases h2 : env.v2_getstats with
    | none =>
      simp only [init_kernel_interface, hs, h2]
      split
      · next h => exact absurd rfl h
      · exact Or.inl rfl
    | some e2 =>
      simp only [init_kernel_interface, hs, h2]
      split
      · next h => exact absurd rfl h
      · split
        · split
          · exact Or.inl rfl
          · exact Or.inr (Or.inl rfl)
        · exact Or.inr (Or.inr rfl)
  rcases hval with hv | hv | hv <;> rw [hv] at hgen <;> exact absurd hgen (by decide)

/-- Witness for C8 (amended) at a concrete probe environment. -/
theorem init_kernel_interface_generic_iff_witness :
    init_kernel_interface envProbeGeneric =
      ⟨some IFACE_GENERIC,
       xfs_probe_fmts envProbeGeneric ++ [QF_META, QF_VFSOLD, QF_VFSV0, QF_VFSV1]⟩ :=
  init_kernel_interface_generic_iff.2 envProbeGeneric (by decide)

/-! ### C3: check_fmtfile_ok under NF_EXIST -/

/-- Counterexample to C3 as stated: with NF_EXIST requested and stat failing
with ENOENT, quota-file resolution does not succeed — get_qf_name returns -1
(modelled as `none`); only the diagnostic is suppressed. -/
theorem get_qf_name_enoent_cex :
    get_qf_name envFsEnoent mntPlainUsr USRQUOTA QF_VFSV0 ⟨true, false⟩ = (none, false) := by
  decide

/-- C3 as amended: when NF_EXIST is requested, any stat failure makes
check_fmtfile_ok fail and hence get_qf_name return -1 — a missing file
(ENOENT) included; the diagnostic is emitted exactly for stat errors other
than ENOENT, so absence fails silently rather than being tolerated. -/
theorem check_exist_stat_fail :
    (∀ (env : FsEnv) (name : List Char) (type : Nat) (fmt : Int) (flags : NfFlags) (e : Nat),
      flags.exist = true → env.stat name = some e →
      check_fmtfile_ok env name type fmt flags = (false, decide (e ≠ ENOENT))) ∧
    (∀ (env : FsEnv) (mnt : mount_entry) (fmt : Int) (flags : NfFlags) (e : Nat) (o : List Char),
      flags.exist = true → (∀ n, env.stat n = some e) →
      str_hasmntopt mnt.me_opts MNTOPT_USRQUOTA = some o →
      get_qf_name env mnt USRQUOTA fmt flags = (none, decide (e ≠ ENOENT))) := by
  have part1 : ∀ (env : FsEnv) (name : List Char) (type : Nat) (fmt : Int)
      (flags : NfFlags) (e : Nat),
      flags.exist = true → env.stat name = some e →
      check_fmtfile_ok env name type fmt flags = (false, decide (e ≠ ENOENT)) := by
    intro env name type fmt flags e hex hstat
    have hni : ¬ (flags.exist = false ∧ flags.format = false) := by
      rintro ⟨h1, _⟩
      rw [hex] at h1
      exact absurd h1 (by decide)
    simp [check_fmtfile_ok, hni, hex, hstat]
  refine ⟨part1, ?_⟩
  intro env mnt fmt flags e o hex hstat hopt
  have hin : ∀ n, check_fmtfile_ok env n USRQUOTA fmt flags = (false, decide (e ≠ ENOENT)) :=
    fun n => part1 env n USRQUOTA fmt flags e hex (hstat n)
  simp [get_qf_name, qf_branch, hopt, hin]

/-- Witness for C3 (amended) at concrete inputs: a stat error other than
ENOENT fails resolution with a diagnostic. -/
theorem check_exist_stat_fail_witness :
    check_fmtfile_ok envFsEacces (String.toList "/mnt/aquota.user") USRQUOTA QF_VFSV0
        ⟨true, false⟩ = (false, decide (EACCES ≠ ENOENT)) ∧
    get_qf_name envFsEacces mntPlainUsr USRQUOTA QF_VFSV0 ⟨true, false⟩ =
        (none, decide (EACCES ≠ ENOENT)) :=
  ⟨check_exist_stat_fail.1 _ _ _ _ _ _ rfl rfl,
   check_exist_stat_fail.2 _ _ _ _ _ (String.toList "usrquota") rfl (fun _ => rfl)
     (by decide)⟩

/-! ### C6 and C7: get_qf_name path synthesis -/

/-- Length bound on the entries of the basename table. -/
theorem basenames_length (fmt : Int) : (basenames fmt).length ≤ 6 := by
  unfold basenames
  split
  · decide
  · split
    · decide
    · split
      · decide
      · decide

/-- C6: for a mount entry whose options carry a plain usrquota option with no
'=path' argument, get_qf_name synthesizes the quota-file path as
"mountpoint/basename.extension" from the basename and extension tables; with
the v2 basename this yields "mountpoint/aquota.user" for the user type.  The
length hypothesis keeps the synthesized name within the PATH_MAX buffer
(snprintf would otherwise truncate it). -/
theorem get_qf_name_default_name (env : FsEnv) (mnt : mount_entry) (fmt : Int)
    (o : List Char)
    (hopt : str_hasmntopt mnt.me_opts MNTOPT_USRQUOTA = some o)
    (hplain : (o.drop MNTOPT_USRQUOTA.length).head? ≠ some '=')
    (hdir : mnt.me_dir.length ≤ 4082) :
    (get_qf_name env mnt USRQUOTA fmt ⟨false, false⟩).1 =
        some (mnt.me_dir ++ '/' :: (basenames fmt ++ '.' :: extensions USRQUOTA)) ∧
    (fmt = QF_VFSV0 →
      (get_qf_name env mnt USRQUOTA fmt ⟨false, false⟩).1 =
        some (mnt.me_dir ++ String.toList "/aquota.user")) := by
  have hplain' : ¬ (o[MNTOPT_USRQUOTA.length]? = some '=') := by
    rw [← List.head?_drop]
    exact hplain
  have hext : (extensions USRQUOTA).length = 4 := by decide
  have hbn := basenames_length fmt
  have hlen : (mnt.me_dir ++ '/' :: (basenames fmt ++ '.' :: extensions USRQUOTA)).length ≤
      PATH_MAX - 1 := by
    have hpm : PATH_MAX - 1 = 4095 := by decide
    rw [hpm]
    simp only [List.length_append, List.length_cons, hext]
    omega
  have hmain : (get_qf_name env mnt USRQUOTA fmt ⟨false, false⟩).1 =
      some (mnt.me_dir ++ '/' :: (basenames fmt ++ '.' :: extensions USRQUOTA)) := by
    simp [get_qf_name, qf_branch, hopt, check_fmtfile_ok]
    rw [if_neg hplain', List.take_of_length_le hlen]
  refine ⟨hmain, fun hf => ?_⟩
  subst hf
  have hfix : ('/' :: (basenames QF_VFSV0 ++ '.' :: extensions USRQUOTA)) =
      String.toList "/aquota.user" := by decide
  rw [hmain, hfix]

/-- Witness for C6 at a concrete mount entry. -/
theorem get_qf_name_default_name_witness :
    (get_qf_name envFsOk mntPlainUsr USRQUOTA QF_VFSV0 ⟨false, false⟩).1 =
      some (String.toList "/mnt" ++ String.toList "/aquota.user") :=
  (get_qf_name_default_name envFsOk mntPlainUsr QF_VFSV0 (String.toList "usrquota")
    (by decide) (by decide) (by decide)).2 rfl

/-- Counterexample to C7 as stated: for options
"usrjquota=/my/journal,jqfmt=vfsv0" and mountpoint "/mnt" the resolved path
is "/mnt//my/journal" — the mountpoint, a '/', then the argument — not the
claimed "/mnt/my/journal" (the two only denote the same file as POSIX
paths). -/
theorem get_qf_name_jquota_cex :
    (get_qf_name envFsOk mntJq USRQUOTA QF_VFSV0 ⟨false, false⟩).1 =
        some (String.toList "/mnt//my/journal") ∧
    (get_qf_name envFsOk mntJq USRQUOTA QF_VFSV0 ⟨false, false⟩).1 ≠
        some (String.toList "/mnt/my/journal") := by
  decide

/-- C7 as amended: for a mount whose options carry the journaled user-quota
option with an argument, the resolved user-quota path is the mountpoint
directory, then a '/' separator, then the argument truncated at the next ','
option separator (so an argument that itself starts with '/' yields a double
slash after the mountpoint).  The length hypotheses keep the name within the
PATH_MAX buffer. -/
theorem get_qf_name_jquota (env : FsEnv) (mnt : mount_entry) (fmt : Int)
    (arg : List Char)
    (hno : str_hasmntopt mnt.me_opts MNTOPT_USRQUOTA = none)
    (harg : hasmntoptarg mnt.me_opts MNTOPT_USRJQUOTA = some arg)
    (hdir : mnt.me_dir.length ≤ 4094)
    (hlen : (arg.takeWhile (fun c => c != ',')).length + mnt.me_dir.length + 1 ≤ 4095) :
    (get_qf_name env mnt USRQUOTA fmt ⟨false, false⟩).1 =
      some (mnt.me_dir ++ '/' :: arg.takeWhile (fun c => c != ',')) := by
  have hds : dir_slash mnt.me_dir = mnt.me_dir ++ ['/'] := by
    have hpm : PATH_MAX - 1 = 4095 := by decide
    unfold dir_slash
    rw [hpm, List.take_of_length_le (show mnt.me_dir.length ≤ 4095 by omega),
      List.take_of_length_le]
    simp only [List.length_append, List.length_cons, List.length_nil]
    omega
  have hcp : copy_mntoptarg arg (PATH_MAX - (mnt.me_dir.length + 1)) =
      arg.takeWhile (fun c => c != ',') := by
    unfold copy_mntoptarg
    apply List.take_of_length_le
    have : PATH_MAX = 4096 := by decide
    omega
  simp [get_qf_name, qf_branch, hno, harg, hds, check_fmtfile_ok]
  exact hcp

/-- Witness for C7 (amended) at the concrete mount entry of the
counterexample. -/
theorem get_qf_name_jquota_witness :
    (get_qf_name envFsOk mntJq USRQUOTA QF_VFSV0 ⟨false, false⟩).1 =
      some (String.toList "/mnt" ++ '/' ::
        (String.toList "/my/journal,jqfmt=vfsv0").takeWhile (fun c => c != ',')) :=
  get_qf_name_jquota envFsOk mntJq QF_VFSV0 (String.toList "/my/journal,jqfmt=vfsv0")
    (by decide) (by decide) (by decide) (by decide)

/-! ### C10: str_hasmntopt matches complete option tokens -/

/-- Dropping the length of the takeWhile prefix is dropWhile. -/
theorem drop_length_takeWhile (p : Char → Bool) (s : List Char) :
    s.drop (s.takeWhile p).length = s.dropWhile p := by
  induction s with
  | nil => rfl
  | cons c cs ih =>
    by_cases h : p c = true
    · simp [List.takeWhile_cons_of_pos h, List.dropWhile_cons_of_pos h, ih]
    · simp [List.takeWhile_cons_of_neg h, List.dropWhile_cons_of_neg h]

/-- dropWhile never lengthens a list. -/
theorem length_dropWhile_le (p : Char → Bool) (s : List Char) :
    (s.dropWhile p).length ≤ s.length := by
  induction s with
  | nil => exact Nat.le_refl _
  | cons c cs ih =>
    by_cases h : p c = true
    · rw [List.dropWhile_cons_of_pos h]
      exact Nat.le_trans ih (Nat.le_succ _)
    · rw [List.dropWhile_cons_of_neg h]

/-- The name scanned by the str_hasmntopt loop (stopping at ',' or '=') is
the name part of the first comma-separated token. -/
theorem optName_takeWhile (s : List Char) :
    optName (s.takeWhile (fun c => c != ',')) =
      s.takeWhile (fun c => c != ',' && c != '=') := by
  induction s with
  | nil => rfl
  | cons c cs ih =>
    by_cases hc : c = ','
    · subst hc
      simp [optName]
    · by_cases he : c = '='
      · subst he
        simp [optName]
      · simp only [optName] at ih
        simp [optName, List.takeWhile_cons, hc, he, ih]

/-- Dropping up to the first ',' can be factored through first dropping up to
the first ',' or '='. -/
theorem dropWhile_comma_through (s : List Char) :
    s.dropWhile (fun c => c != ',') =
      (s.dropWhile (fun c => c != ',' && c != '=')).dropWhile (fun c => c != ',') := by
  induction s with
  | nil => rfl
  | cons c cs ih =>
    by_cases h : (c != ',' && c != '=') = true
    · have hpc : (c != ',') = true := by
        cases hb : (c != ',') with
        | false => rw [hb] at h; simp at h
        | true => rfl
      rw [List.dropWhile_cons, List.dropWhile_cons, if_pos h, if_pos hpc]
      exact ih
    · conv_rhs => rw [List.dropWhile_cons]
      rw [if_neg h]

/-- splitTokens splits off the first token: the head is the prefix before
the first ',', and the tail is the token list of the remainder after that
',' (empty when there is no ','). -/
theorem splitTokens_eq (s : List Char) :
    splitTokens s = s.takeWhile (fun c => c != ',') ::
      (match s.dropWhile (fun c => c != ',') with
       | [] => ([] : List (List Char))
       | _ :: u => splitTokens u) := by
  induction s with
  | nil => rfl
  | cons c cs ih =>
    by_cases hc : c = ','
    · subst hc
      simp [splitTokens]
    · have hb : (c != ',') = true := by simp [hc]
      simp [splitTokens, hc, ih, List.takeWhile_cons, List.dropWhile_cons, hb]

/-- One unfolding of the str_hasmntopt loop: either the first token's name
matches, or the loop continues right after the first ',' of the remaining
string (stopping when nothing follows). -/
theorem str_hasmntopt_go_succ (opt : List Char) (fuel : Nat) (s : List Char) :
    str_hasmntopt_go opt (fuel + 1) s =
      (if s.takeWhile (fun c => c != ',' && c != '=') = opt then some s
       else if (s.dropWhile (fun c => c != ',')).drop 1 = [] then none
       else str_hasmntopt_go opt fuel ((s.dropWhile (fun c => c != ',')).drop 1)) := by
  simp only [str_hasmntopt_go]
  by_cases hname : s.takeWhile (fun c => c != ',' && c != '=') = opt
  · rw [if_pos hname, if_pos hname]
  · rw [if_neg hname, if_neg hname, drop_length_takeWhile]
    have hpc := dropWhile_comma_through s
    cases hd : s.dropWhile (fun c => c != ',' && c != '=') with
    | nil =>
      rw [hd] at hpc
      simp [hpc]
    | cons c t =>
      have hcf : (c != ',' && c != '=') = false := by
        have h0 := List.head?_dropWhile_not (fun c => c != ',' && c != '=') s
        rw [hd] at h0
        simpa using h0
      have hcc : c = ',' ∨ c = '=' := by
        by_cases h1 : c = ','
        · exact Or.inl h1
        · by_cases h2 : c = '='
          · exact Or.inr h2
          · exfalso
            have hbt : (c != ',' && c != '=') = true := by
              simp [bne_iff_ne, h1, h2]
            rw [hbt] at hcf
            exact absurd hcf (by decide)
      rw [hd] at hpc
      rcases hcc with hcc | hcc
      · subst hcc
        have hpc2 : s.dropWhile (fun c => c != ',') = ',' :: t := by
          simpa using hpc
        rw [hpc2]
        simp
      · subst hcc
        have hpc2 : s.dropWhile (fun c => c != ',') =
            t.dropWhile (fun c => c != ',') := by
          simpa using hpc
        rw [hpc2]
        cases hr : t.dropWhile (fun c => c != ',') <;> simp [hr]

/-- The str_hasmntopt loop, run with enough fuel, finds a match exactly when
some comma-separated token of the remaining string has the searched (and
nonempty) name. -/
theorem str_hasmntopt_go_iff (opt : List Char) (hopt : opt ≠ []) :
    ∀ (fuel : Nat) (s : List Char), s.length < fuel →
      ((str_hasmntopt_go opt fuel s).isSome = true ↔
        ∃ t ∈ splitTokens s, optName t = opt) := by
  intro fuel
  induction fuel with
  | zero => intro s hs; omega
  | succ fuel ih =>
    intro s hs
    rw [str_hasmntopt_go_succ]
    by_cases hname : s.takeWhile (fun c => c != ',' && c != '=') = opt
    · rw [if_pos hname]
      refine ⟨fun _ => ⟨s.takeWhile (fun c => c != ','), ?_, ?_⟩, fun _ => rfl⟩
      · rw [splitTokens_eq]
        exact List.mem_cons_self _ _
      · rw [optName_takeWhile]
        exact hname
    · rw [if_neg hname]
      by_cases hempty : (s.dropWhile (fun c => c != ',')).drop 1 = []
      · rw [if_pos hempty]
        constructor
        · intro h
          exact absurd h (by simp)
        · rintro ⟨t, ht, htn⟩
          rw [splitTokens_eq] at ht
          cases hd : s.dropWhile (fun c => c != ',') with
          | nil =>
            rw [hd] at ht
            rcases List.mem_cons.mp ht with rfl | hmem
            · rw [optName_takeWhile] at htn
              exact absurd htn hname
            · exact absurd hmem (List.not_mem_nil t)
          | cons d u =>
            have hu : u = [] := by
              rw [hd] at hempty
              simpa using hempty
            subst hu
            rw [hd] at ht
            rcases List.mem_cons.mp ht with rfl | hmem
            · rw [optName_takeWhile] at htn
              exact absurd htn hname
            · have ht0 : t ∈ splitTokens [] := hmem
              rcases List.mem_cons.mp ht0 with rfl | hmem2
              · exact absurd htn.symm hopt
              · exact absurd hmem2 (List.not_mem_nil t)
      · rw [if_neg hempty]
        cases hd : s.dropWhile (fun c => c != ',') with
        | nil =>
          exfalso
          rw [hd] at hempty
          exact hempty rfl
        | cons d u =>
          have hru : List.drop 1 (d :: u) = u := rfl
          have hlt : u.length < fuel := by
            have h1 : (s.dropWhile (fun c => c != ',')).length ≤ s.length :=
              length_dropWhile_le _ _
            rw [hd] at h1
            simp only [List.length_cons] at h1
            omega
          rw [hru, ih u hlt]
          constructor
          · rintro ⟨t, ht, htn⟩
            refine ⟨t, ?_, htn⟩
            rw [splitTokens_eq, hd]
            exact List.mem_cons_of_mem _ ht
          · rintro ⟨t, ht, htn⟩
            rw [splitTokens_eq, hd] at ht
            rcases List.mem_cons.mp ht with rfl | hmem
            · rw [optName_takeWhile] at htn
              exact absurd htn hname
            · exact ⟨t, hmem, htn⟩

/-- C10 as amended: for every option string and every nonempty searched
name, str_hasmntopt finds a match exactly when some comma-separated option
token, truncated before its '=' argument, is character-for-character equal
to the searched name.  (For the empty searched name the code misses the
empty token a trailing ',' produces; see the counterexample.) -/
theorem str_hasmntopt_token_iff (optstring opt : List Char) (hopt : opt ≠ []) :
    ((str_hasmntopt optstring opt).isSome = true ↔
      ∃ t ∈ splitTokens optstring, optName t = opt) :=
  str_hasmntopt_go_iff opt hopt (optstring.length + 1) optstring (Nat.lt_succ_self _)

/-- Witness for C10 (amended): a proper-prefix search does not match, a
complete token does. -/
theorem str_hasmntopt_token_iff_witness :
    ((str_hasmntopt (String.toList "usrquota,rw") (String.toList "quota")).isSome = true ↔
      ∃ t ∈ splitTokens (String.toList "usrquota,rw"),
        optName t = String.toList "quota") ∧
    ((str_hasmntopt (String.toList "usrjquota=/a,grpquota") (String.toList "grpquota")).isSome
        = true ↔
      ∃ t ∈ splitTokens (String.toList "usrjquota=/a,grpquota"),
        optName t = String.toList "grpquota") :=
  ⟨str_hasmntopt_token_iff _ _ (by decide), str_hasmntopt_token_iff _ _ (by decide)⟩

/-- Counterexample to C10 as stated: for the option string "a," and the
empty searched name, splitting on ',' yields a trailing empty token whose
name equals the searched name, yet str_hasmntopt returns no match — the
do/while loop exits after consuming the final ',' without examining the
empty trailing token. -/
theorem str_hasmntopt_empty_name_cex :
    ¬ (((str_hasmntopt (String.toList "a,") []).isSome = true) ↔
        ∃ t ∈ splitTokens (String.toList "a,"), optName t = []) := by
  decide

/-! ### C1 and C9: the mount-table cache -/

/-- Case analysis of the local (non-NFS) dedup stage: either nothing is
appended, or one entry with a device identity fresh in the cache. -/
theorem step_local_entries_cases (st : CacheState) (r : MntRecord)
    (devname opts : List Char) (qu qg : Int) (mp : List Char) :
    (step_local st r devname opts qu qg mp).entries = st.entries ∨
    ∃ e, (step_local st r devname opts qu qg mp).entries = st.entries ++ [e] ∧
      ∀ a ∈ st.entries, a.me_dev ≠ e.me_dev := by
  unfold step_local
  cases r.dev_stat with
  | none => exact Or.inl rfl
  | some ds =>
    simp only []
    by_cases h1 : ds.isBlk = false ∧ ds.isChr = false
    · rw [if_pos h1]
      exact Or.inl rfl
    · rw [if_neg h1]
      by_cases hany : (st.entries.any fun e => e.me_dev == ds.st_rdev) = true
      · rw [if_pos hany]
        exact Or.inl rfl
      · rw [if_neg hany]
        cases r.dir_stat with
        | none => exact Or.inl rfl
        | some dirst =>
          refine Or.inr ⟨_, rfl, ?_⟩
          intro a ha hae
          apply hany
          refine List.any_eq_true.mpr ⟨a, ha, ?_⟩
          rw [hae]
          exact beq_self_eq_true _

/-- Case analysis of the NFS dedup stage: either nothing is appended, or one
NFS-typed entry, through the MS_NFS_ALL exemption or with a fresh device
identity. -/
theorem step_nfs_entries_cases (flags : ScanFlags) (st : CacheState) (r : MntRecord)
    (devname opts : List Char) (qu qg : Int) (mp : List Char) :
    (step_nfs flags st r devname opts qu qg mp).entries = st.entries ∨
    ∃ e, (step_nfs flags st r devname opts qu qg mp).entries = st.entries ++ [e] ∧
      e.me_type = r.mnt_type ∧
      (flags.ms_nfs_all = true ∨ ∀ a ∈ st.entries, a.me_dev ≠ e.me_dev) := by
  unfold step_nfs
  cases r.dir_stat with
  | none => exact Or.inl rfl
  | some dirst =>
    simp only []
    by_cases hcond : flags.ms_nfs_all = false ∧
        (st.entries.any fun e => e.me_dev == dirst.st_dev) = true
    · rw [if_pos hcond]
      exact Or.inl rfl
    · rw [if_neg hcond]
      by_cases hflag : flags.ms_nfs_all = true
      · exact Or.inr ⟨_, rfl, rfl, Or.inl hflag⟩
      · have hfa : flags.ms_nfs_all = false := by
          cases hb : flags.ms_nfs_all with
          | false => rfl
          | true => exact absurd hb hflag
        refine Or.inr ⟨_, rfl, rfl, Or.inr ?_⟩
        intro a ha hae
        apply hcond
        refine ⟨hfa, List.any_eq_true.mpr ⟨a, ha, ?_⟩⟩
        rw [hae]
        exact beq_self_eq_true _

/-- Case analysis of the mountpoint stage. -/
theorem step_mntstat_entries_cases (flags : ScanFlags) (st : CacheState)
    (r : MntRecord) (devname opts : List Char) (qu qg : Int) :
    (step_mntstat flags st r devname opts qu qg).entries = st.entries ∨
    ∃ e, (step_mntstat flags st r devname opts qu qg).entries = st.entries ++ [e] ∧
      ((flags.ms_nfs_all = true ∧ nfs_fstype e.me_type = true) ∨
       ∀ a ∈ st.entries, a.me_dev ≠ e.me_dev) := by
  unfold step_mntstat
  cases r.realpath_dir with
  | none => exact Or.inl rfl
  | some mp =>
    cases r.statfs_res with
    | none => exact Or.inl rfl
    | some fsstat =>
      simp only []
      by_cases hz : fsstat.1 = 0 ∧ fsstat.2.1 = 0 ∧ fsstat.2.2 = 0
      · rw [if_pos hz]
        exact Or.inl rfl
      · rw [if_neg hz]
        by_cases hnfs : nfs_fstype r.mnt_type = false
        · rw [if_pos hnfs]
          rcases step_local_entries_cases st r devname opts qu qg mp with h | ⟨e, he, hf⟩
          · exact Or.inl h
          · exact Or.inr ⟨e, he, Or.inr hf⟩
        · rw [if_neg hnfs]
          have ht : nfs_fstype r.mnt_type = true := by
            cases hb : nfs_fstype r.mnt_type with
            | false => exact absurd hb hnfs
            | true => rfl
          rcases step_nfs_entries_cases flags st r devname opts qu qg mp with
            h | ⟨e, he, hty, hc⟩
          · exact Or.inl h
          · rcases hc with hfl | hfresh
            · exact Or.inr ⟨e, he, Or.inl ⟨hfl, by rw [hty]; exact ht⟩⟩
            · exact Or.inr ⟨e, he, Or.inr hfresh⟩

/-- Case analysis of the classification stage. -/
theorem step_quota_entries_cases (flags : ScanFlags) (st : CacheState)
    (r : MntRecord) (devname0 : List Char) :
    (step_quota flags st r devname0).entries = st.entries ∨
    ∃ e, (step_quota flags st r devname0).entries = st.entries ++ [e] ∧
      ((flags.ms_nfs_all = true ∧ nfs_fstype e.me_type = true) ∨
       ∀ a ∈ st.entries, a.me_dev ≠ e.me_dev) := by
  simp only [step_quota]
  by_cases hq : hasquota (loop_subst r devname0).1 r (loop_subst r devname0).2
        USRQUOTA flags < 0 ∧
      hasquota (loop_subst r devname0).1 r (loop_subst r devname0).2 GRPQUOTA flags < 0
  · rw [if_pos hq]
    exact Or.inl rfl
  · rw [if_neg hq]
    exact step_mntstat_entries_cases flags st r _ _ _ _

/-- Case analysis of one cache step: either the record contributes no entry,
or exactly one entry is appended, and then either the record went through the
MS_NFS_ALL exemption (it is NFS-typed and the flag is set) or its device
identity is fresh among the cached entries. -/
theorem step_entries_cases (flags : ScanFlags) (st : CacheState) (r : MntRecord) :
    (step flags st r).entries = st.entries ∨
    ∃ e, (step flags st r).entries = st.entries ++ [e] ∧
      ((flags.ms_nfs_all = true ∧ nfs_fstype e.me_type = true) ∨
       ∀ a ∈ st.entries, a.me_dev ≠ e.me_dev) := by
  unfold step
  cases hdev : r.get_device_name with
  | none => exact Or.inl rfl
  | some dn =>
    simp only []
    by_cases h1 : (st.autofs.any fun d => d.isPrefixOf r.mnt_dir) = true
    · rw [if_pos h1]
      exact Or.inl rfl
    · rw [if_neg h1]
      by_cases h2 : flags.ms_no_autofs = true ∧ r.mnt_type = MNTTYPE_AUTOFS
      · rw [if_pos h2]
        exact Or.inl rfl
      · rw [if_neg h2]
        by_cases h3 : flags.ms_localonly = true ∧ nfs_fstype r.mnt_type = true
        · rw [if_pos h3]
          exact Or.inl rfl
        · rw [if_neg h3]
          by_cases h4 : hasmntopt r.mnt_opts MNTOPT_NOQUOTA = true
          · rw [if_pos h4]
            exact Or.inl rfl
          · rw [if_neg h4]
            by_cases h5 : hasmntopt r.mnt_opts MNTOPT_BIND = true
            · rw [if_pos h5]
              exact Or.inl rfl
            · rw [if_neg h5]
              exact step_quota_entries_cases flags st r dn

/-- Splitting the fold at the last record. -/
theorem cache_mnt_table_append (flags : ScanFlags) (rs : List MntRecord) (r : MntRecord) :
    cache_mnt_table flags (rs ++ [r]) = step flags (cache_mnt_table flags rs) r := by
  unfold cache_mnt_table
  rw [List.foldl_append]
  rfl

/-- The pairwise dedup relation of a cache state is preserved by every step
and hence by the whole fold. -/
theorem cache_fold_pairwise (flags : ScanFlags) (rs : List MntRecord) :
    ∀ st : CacheState,
      st.entries.Pairwise (fun a b => a.me_dev = b.me_dev →
        flags.ms_nfs_all = true ∧ nfs_fstype b.me_type = true) →
      ((rs.foldl (step flags) st).entries).Pairwise (fun a b => a.me_dev = b.me_dev →
        flags.ms_nfs_all = true ∧ nfs_fstype b.me_type = true) := by
  induction rs with
  | nil => intro st h; exact h
  | cons r rs ih =>
    intro st h
    rw [List.foldl_cons]
    apply ih
    rcases step_entries_cases flags st r with heq | ⟨e, heq, hcond⟩
    · rw [heq]; exact h
    · rw [heq]
      rw [List.pairwise_append]
      refine ⟨h, List.pairwise_singleton _ _, ?_⟩
      intro a ha b hb
      rcases List.mem_singleton.mp hb with rfl
      intro hdev
      rcases hcond with hc | hfresh
      · exact hc
      · exact absurd hdev (hfresh a ha)

/-- C1: the cache keeps exactly one entry per device identity — any two
cached entries with equal identity can only arise through the MS_NFS_ALL
exemption, the later of the two being an NFS entry (first conjunct); every
record appends at most one entry at the end, so first-seen order is
preserved and earlier entries are kept untouched (second conjunct); when
MS_NFS_ALL is off, a record can never add a second entry for an identity
already cached — the first-seen entry is the one retained (third conjunct);
and when MS_NFS_ALL is set, every NFS-family record that reaches the dedup
stage gets its own entry, never merging with an existing one (fourth
conjunct). -/
theorem cache_mnt_table_dedup (flags : ScanFlags) (rs : List MntRecord) :
    ((cache_mnt_table flags rs).entries.Pairwise
      (fun a b => a.me_dev = b.me_dev →
        flags.ms_nfs_all = true ∧ nfs_fstype b.me_type = true)) ∧
    (∀ r, ∃ t, (cache_mnt_table flags (rs ++ [r])).entries =
        (cache_mnt_table flags rs).entries ++ t ∧ t.length ≤ 1) ∧
    (∀ r d, flags.ms_nfs_all = false →
      (∃ e ∈ (cache_mnt_table flags rs).entries, e.me_dev = d) →
      ((cache_mnt_table flags (rs ++ [r])).entries.filter (fun e => e.me_dev == d)) =
        ((cache_mnt_table flags rs).entries.filter (fun e => e.me_dev == d))) ∧
    (∀ r, flags.ms_nfs_all = true → nfs_fstype r.mnt_type = true →
      nfs_record_passes flags (cache_mnt_table flags rs) r →
      ∃ e, (cache_mnt_table flags (rs ++ [r])).entries =
          (cache_mnt_table flags rs).entries ++ [e] ∧ e.me_type = r.mnt_type) := by
  refine ⟨?_, ?_, ?_, ?_⟩
  · exact cache_fold_pairwise flags rs ⟨[], []⟩ (List.Pairwise.nil)
  · intro r
    rw [cache_mnt_table_append]
    rcases step_entries_cases flags (cache_mnt_table flags rs) r with heq | ⟨e, heq, _⟩
    · exact ⟨[], by rw [heq, List.append_nil], by simp⟩
    · exact ⟨[e], heq, by simp⟩
  · intro r d hflag ⟨e0, he0, he0d⟩
    rw [cache_mnt_table_append]
    rcases step_entries_cases flags (cache_mnt_table flags rs) r with heq | ⟨e, heq, hcond⟩
    · rw [heq]
    · rw [heq, List.filter_append]
      have hne : e.me_dev ≠ d := by
        rcases hcond with ⟨hf, _⟩ | hfresh
        · rw [hflag] at hf
          exact absurd hf (by decide)
        · intro hed
          exact hfresh e0 he0 (by rw [he0d, hed])
      have : List.filter (fun e => e.me_dev == d) [e] = [] := by
        simp [List.filter_cons, hne]
      rw [this, List.append_nil]
  · intro r hflag hnfs hp
    rw [cache_mnt_table_append]
    rcases hp with ⟨dn, mp, fs, dirst, hdn, hauto, hlocal, hnoq, hbind, hq, hrp, hst, hnz, hds⟩
    have hna : ¬ (flags.ms_no_autofs = true ∧ r.mnt_type = MNTTYPE_AUTOFS) := by
      rintro ⟨_, htype⟩
      rw [htype] at hnfs
      exact absurd hnfs (by decide)
    simp only [step, hdn]
    rw [if_neg (by rw [hauto]; exact (by decide : ¬ (false = true))), if_neg hna,
      if_neg (by rintro ⟨h, _⟩; rw [hlocal] at h; exact absurd h (by decide)),
      if_neg (by rw [hnoq]; exact (by decide : ¬ (false = true))),
      if_neg (by rw [hbind]; exact (by decide : ¬ (false = true)))]
    simp only [step_quota]
    rw [if_neg hq]
    simp only [step_mntstat, hrp, hst]
    rw [if_neg hnz, if_neg (by rw [hnfs]; exact (by decide : ¬ (true = false)))]
    simp only [step_nfs, hds]
    rw [if_neg (by rintro ⟨h, _⟩; rw [hflag] at h; exact absurd h (by decide))]
    exact ⟨_, rfl, rfl⟩

/-- Witness for C1: under MS_NFS_ALL a second identical NFS record still
gets its own entry. -/
theorem cache_mnt_table_dedup_witness :
    ∃ e, (cache_mnt_table flagsNfsAll ([recNfsHome] ++ [recNfsHome])).entries =
        (cache_mnt_table flagsNfsAll [recNfsHome]).entries ++ [e] ∧
      e.me_type = recNfsHome.mnt_type :=
  (cache_mnt_table_dedup flagsNfsAll [recNfsHome]).2.2.2 recNfsHome rfl (by decide)
    ⟨String.toList "srv:/home", String.toList "/home", (10, 5, 5), ⟨21, 2⟩,
     by decide, by decide, by decide, by decide, by decide, by decide,
     by decide, by decide, by decide, by decide⟩

/-- Counterexample to C9 as stated: without MS_NO_AUTOFS an autofs
mount-table record is neither remembered as an exclusion prefix nor skipped
— carrying a usrquota option, it is classified and cached like any other
record (one entry, device 77, no recorded prefix). -/
theorem cache_autofs_cex :
    recAutofsQuota.mnt_type = MNTTYPE_AUTOFS ∧
    (cache_mnt_table flagsNone [recAutofsQuota]).entries.map mount_entry.me_dev = [77] ∧
    (cache_mnt_table flagsNone [recAutofsQuota]).autofs = [] := by
  decide

/-- C9 as amended: a record whose raw mountpoint lies under a previously
recorded autofs prefix leaves the cache state unchanged — it is neither
classified nor added, regardless of its own options (first conjunct); and
when skip-autofs (MS_NO_AUTOFS) is requested, an autofs record whose device
name resolves and that is not itself under a recorded prefix is remembered
as a new trailing-slash-normalized exclusion prefix and skipped (second
conjunct).  Without MS_NO_AUTOFS an autofs record is not remembered (see the
counterexample). -/
theorem cache_autofs_excluded (flags : ScanFlags) (st : CacheState) (r : MntRecord) :
    (st.autofs.any (fun d => d.isPrefixOf r.mnt_dir) = true → step flags st r = st) ∧
    (flags.ms_no_autofs = true → r.mnt_type = MNTTYPE_AUTOFS →
      r.get_device_name ≠ none →
      st.autofs.any (fun d => d.isPrefixOf r.mnt_dir) = false →
      (step flags st r).entries = st.entries ∧
      (step flags st r).autofs = st.autofs ++ [r.mnt_dir ++ ['/']]) := by
  constructor
  · intro h
    cases hdev : r.get_device_name with
    | none => simp only [step, hdev]
    | some dn =>
      simp only [step, hdev]
      rw [if_pos h]
  · intro hnoa htype hne hauto
    cases hdev : r.get_device_name with
    | none => exact absurd hdev hne
    | some dn =>
      simp only [step, hdev]
      rw [if_neg (by rw [hauto]; exact (by decide : ¬ (false = true))), if_pos ⟨hnoa, htype⟩]
      exact ⟨rfl, rfl⟩

/-- Witness for C9 (amended): with MS_NO_AUTOFS set, the concrete autofs
record is remembered and skipped. -/
theorem cache_autofs_excluded_witness :
    (step flagsNoAutofs ⟨[], []⟩ recAutofsQuota).entries = [] ∧
    (step flagsNoAutofs ⟨[], []⟩ recAutofsQuota).autofs =
      [] ++ [String.toList "/net" ++ ['/']] :=
  (cache_autofs_excluded flagsNoAutofs ⟨[], []⟩ recAutofsQuota).2 rfl rfl
    (by decide) (by decide)

end QuotaSys
